import Mathlib

/-!
Verification of the flare-server-core service-discovery subsystem.

This file gives a shallow embedding, in Lean, of the discovery data model
(`src/discovery/instance.rs`), the etcd and Consul backends
(`src/discovery/backend/etcd.rs`, `src/discovery/backend/consul.rs`),
the reconciler refresh task (`src/discovery/discover.rs`) and the factory
defaults (`src/discovery/factory.rs`), and proves or refutes the stated
properties of those components.

Modelling conventions:
 - Rust `HashMap<String, V>` is modelled as an association list
   `List (String × V)` with at most one binding per key; `assocPut`
   mirrors `HashMap::insert` (replace-or-append), `assocGet` mirrors
   `HashMap::get`, `assocErase` mirrors `HashMap::remove`.  Iteration
   order of a Rust `HashMap` is arbitrary; the association list fixes one
   deterministic order, a refinement that does not affect the per-key
   properties proved here.
 - The etcd KV store is modelled as a list of key/value pairs whose value
   is the `serde_json` decode result of the stored bytes: `some inst` for
   bytes that decode to a `ServiceInstance` (serde round-trips the struct
   verbatim), `none` for undecodable bytes (which `discover` skips).
 - A tonic transport channel is an opaque handle, modelled as `Nat`;
   dialing (`Endpoint::connect`) is a function `ServiceInstance → Option Channel`,
   `none` modelling a failed dial.
-/

set_option autoImplicit false

namespace Flare

/-! ### Association-list maps (Rust `HashMap<String, V>`) -/

def assocGet {V : Type} : List (String × V) → String → Option V
  | [], _ => none
  | (k, v) :: rest, key => if k = key then some v else assocGet rest key

def assocPut {V : Type} : List (String × V) → String → V → List (String × V)
  | [], key, val => [(key, val)]
  | (k, v) :: rest, key, val =>
    if k = key then (key, val) :: rest else (k, v) :: assocPut rest key val

def assocErase {V : Type} (m : List (String × V)) (key : String) : List (String × V) :=
  m.filter (fun kv => kv.1 ≠ key)

/-! ### IP addresses and socket addresses (`std::net`) -/

/-- `std::net::IpAddr`: an IPv4 address (four octets) or an IPv6 address
(eight 16-bit segments). -/
inductive IpAddr
  | v4 (a b c d : Nat)
  | v6 (a b c d e f g h : Nat)
deriving DecidableEq

/-- `IpAddr::is_unspecified`: `0.0.0.0` or `::`. -/
def IpAddr.is_unspecified : IpAddr → Bool
  | .v4 a b c d => a == 0 && b == 0 && c == 0 && d == 0
  | .v6 a b c d e f g h =>
    a == 0 && b == 0 && c == 0 && d == 0 && e == 0 && f == 0 && g == 0 && h == 0

/-- `IpAddr::is_ipv4`. -/
def IpAddr.is_ipv4 : IpAddr → Bool
  | .v4 _ _ _ _ => true
  | .v6 _ _ _ _ _ _ _ _ => false

/-- The IPv4 loopback address `127.0.0.1`. -/
def loopback4 : IpAddr := .v4 127 0 0 1

/-- The IPv6 loopback address `::1`. -/
def loopback6 : IpAddr := .v6 0 0 0 0 0 0 0 1

/-- `std::net::SocketAddr`: IP plus port. -/
structure SockAddr where
  ip : IpAddr
  port : Nat
deriving DecidableEq

/-! ### The instance model (`src/discovery/instance.rs`) -/

/-- `InstanceMetadata` from `instance.rs`. -/
structure InstanceMetadata where
  region : Option String
  zone : Option String
  environment : Option String
  custom : List (String × String)
deriving DecidableEq

/-- `InstanceMetadata::default()`: all fields empty. -/
def InstanceMetadata.default : InstanceMetadata :=
  { region := none, zone := none, environment := none, custom := [] }

/-- `ServiceInstance` from `instance.rs`.  The Rust field `namespace` is a
Lean keyword and is rendered `namespace_`. -/
structure ServiceInstance where
  service_type : String
  instance_id : String
  address : SockAddr
  namespace_ : Option String
  version : Option String
  tags : List (String × String)
  metadata : InstanceMetadata
  healthy : Bool
  weight : Nat
deriving DecidableEq

/-- `ServiceInstance::new`: defaults `namespace = None`, `version = None`,
empty tags, default metadata, `healthy = true`, `weight = 100`. -/
def ServiceInstance.new (service_type instance_id : String) (address : SockAddr) :
    ServiceInstance :=
  { service_type := service_type
  , instance_id := instance_id
  , address := address
  , namespace_ := none
  , version := none
  , tags := []
  , metadata := InstanceMetadata.default
  , healthy := true
  , weight := 100 }

/-- `ServiceInstance::with_namespace`. -/
def ServiceInstance.with_namespace (self : ServiceInstance) (ns : String) : ServiceInstance :=
  { self with namespace_ := some ns }

/-- `ServiceInstance::with_version`. -/
def ServiceInstance.with_version (self : ServiceInstance) (v : String) : ServiceInstance :=
  { self with version := some v }

/-- `ServiceInstance::with_tag`: inserts into the tag map. -/
def ServiceInstance.with_tag (self : ServiceInstance) (key value : String) : ServiceInstance :=
  { self with tags := assocPut self.tags key value }

/-- `ServiceInstance::matches_tags`: every filter key present with the
filter's value. -/
def ServiceInstance.matches_tags (self : ServiceInstance)
    (filters : List (String × String)) : Bool :=
  filters.all (fun kv =>
    match assocGet self.tags kv.1 with
    | some v => v == kv.2
    | none => false)

/-- `ServiceInstance::matches_version`: `None` matches anything, `Some`
matches exactly; an instance with no version never matches a `Some` filter. -/
def ServiceInstance.matches_version (self : ServiceInstance) (version : Option String) : Bool :=
  match version, self.version with
  | none, _ => true
  | some v, some inst_v => v == inst_v
  | some _, none => false

/-- `ServiceInstance::matches_namespace`: same shape as `matches_version`. -/
def ServiceInstance.matches_namespace (self : ServiceInstance) (ns : Option String) : Bool :=
  match ns, self.namespace_ with
  | none, _ => true
  | some n, some inst_ns => n == inst_ns
  | some _, none => false

/-! ### The etcd backend (`src/discovery/backend/etcd.rs`)

The Rust struct holds an etcd client and `default_namespace`; only the
latter enters the pure key/scan/filter logic.  `strIsPrefixOf` models the
server-side prefix range scan of `GetOptions::with_prefix`. -/

structure EtcdBackend where
  default_namespace : String

def strIsPrefixOf (p s : String) : Bool :=
  p.data.isPrefixOf s.data

/-- `EtcdBackend::service_key`: `{ns}/services/{service_type}/{id}` with a
trailing slash when no id is given (the scan form). -/
def EtcdBackend.service_key (self : EtcdBackend) (service_type : String)
    (instance_id : Option String) (ns : Option String) : String :=
  let nsv := ns.getD self.default_namespace
  match instance_id with
  | some id => nsv ++ "/services/" ++ service_type ++ "/" ++ id
  | none => nsv ++ "/services/" ++ service_type ++ "/"

/-- The key prefixes `discover` scans: the requested namespace when given,
otherwise the hard-coded list `flare`, `flare-test`, `default` (in that
order) from `etcd.rs` lines 67–76. -/
def EtcdBackend.discoverScanKeys (self : EtcdBackend) (service_type : String)
    (ns : Option String) : List String :=
  match ns with
  | some n => [self.service_key service_type none (some n)]
  | none =>
    [ self.service_key service_type none (some "flare")
    , self.service_key service_type none (some "flare-test")
    , self.service_key service_type none (some "default") ]

/-- The in-memory filter applied to each decoded instance: namespace, then
version, then tags, each only when the caller supplied it (`etcd.rs`
lines 86–105). -/
def discoverFilterOk (ns version : Option String)
    (tags : Option (List (String × String))) (inst : ServiceInstance) : Bool :=
  (match ns with
   | some n => inst.matches_namespace (some n)
   | none => true)
  && (match version with
      | some v => inst.matches_version (some v)
      | none => true)
  && (match tags with
      | some t => inst.matches_tags t
      | none => true)

/-- One etcd KV entry: key and the decode result of its value bytes. -/
abbrev EtcdStore := List (String × Option ServiceInstance)

/-- `EtcdBackend::discover`: for each scanned prefix, prefix-scan the
store, decode each value, and keep the instances passing the filters.
No `healthy` check appears anywhere in the source. -/
def EtcdBackend.discover (self : EtcdBackend) (store : EtcdStore)
    (service_type : String) (ns version : Option String)
    (tags : Option (List (String × String))) : List ServiceInstance :=
  (self.discoverScanKeys service_type ns).flatMap (fun keyPfx =>
    (store.filter (fun kv => strIsPrefixOf keyPfx kv.1)).filterMap (fun kv =>
      match kv.2 with
      | none => none
      | some inst => if discoverFilterOk ns version tags inst then some inst else none))

/-- The put operation `EtcdBackend::register` issues: the key under the
instance's namespace (falling back to `"flare"`, `etcd.rs` line 118), the
serialized instance, and the attached lease.  The source builds
`PutOptions::new()` with no lease — its own comment says a lease with the
configured TTL should be created — so `lease` is always `none`. -/
structure EtcdPut where
  key : String
  value : ServiceInstance
  lease : Option Nat
deriving DecidableEq

def EtcdBackend.register (self : EtcdBackend) (inst : ServiceInstance) : EtcdPut :=
  let ns := inst.namespace_.getD "flare"
  { key := self.service_key inst.service_type (some inst.instance_id) (some ns)
  , value := inst
  , lease := none }

/-! ### Environment variables and numeric parsing

`std::env::var(name).ok().and_then(|v| v.parse::<u64>().ok()).unwrap_or(d)`
is modelled by `envU64`.  `parseU64` follows `u64::from_str`: an optional
leading `+`, then one or more ASCII digits, rejecting the empty digit
string and values that overflow 64 bits. -/

/-- The process environment: variable name to optional value. -/
abbrev Env := String → Option String

def parseU64Digits : Nat → List Char → Option Nat
  | acc, [] => some acc
  | acc, c :: rest =>
    if '0' ≤ c ∧ c ≤ '9' then
      let acc2 := acc * 10 + (c.toNat - '0'.toNat)
      if acc2 < 2 ^ 64 then parseU64Digits acc2 rest else none
    else none

def parseU64 (s : String) : Option Nat :=
  match s.data with
  | [] => none
  | '+' :: rest => if rest.isEmpty then none else parseU64Digits 0 rest
  | cs => parseU64Digits 0 cs

def envU64 (env : Env) (name : String) (dflt : Nat) : Nat :=
  match env name with
  | some s => (parseU64 s).getD dflt
  | none => dflt

/-! ### Factory defaults (`src/discovery/factory.rs`) -/

/-- The heartbeat interval `register_and_discover` gives the registry
loop: `SERVICE_HEARTBEAT_INTERVAL`, default 20 (factory.rs lines 211–214). -/
def heartbeatInterval (env : Env) : Nat :=
  envU64 env "SERVICE_HEARTBEAT_INTERVAL" 20

/-- The `"ttl"` value `register_and_discover` hard-codes into the etcd
backend config: `json!(90)` (factory.rs line 166), independent of
`ETCD_TTL_SECONDS`. -/
def etcdRegisterAndDiscoverTtl : Nat := 90

/-- The `"ttl"` value `create_with_defaults` puts into the etcd backend
config: `ETCD_TTL_SECONDS`, default 60 (factory.rs lines 89–92). -/
def etcdDefaultsTtl (env : Env) : Nat :=
  envU64 env "ETCD_TTL_SECONDS" 60

/-! ### The Consul backend (`src/discovery/backend/consul.rs`) -/

/-- The TTL, in seconds, of the TTL check `ConsulBackend::register`
creates: `CONSUL_TTL_SECONDS`, default 45 (consul.rs lines 194–197). -/
def consulTtlSeconds (env : Env) : Nat :=
  envU64 env "CONSUL_TTL_SECONDS" 45

/-- `DeregisterCriticalServiceAfter` for the TTL check: TTL × 2
(consul.rs line 199). -/
def consulDeregisterSeconds (env : Env) : Nat :=
  consulTtlSeconds env * 2

/-- The service address `ConsulBackend::register` sends to the agent:
an unspecified IP is rewritten to the loopback of its family, any other
IP is sent unchanged (consul.rs lines 158–169). -/
def consulServiceAddress (ip : IpAddr) : IpAddr :=
  if ip.is_unspecified then
    if ip.is_ipv4 then loopback4 else loopback6
  else ip

/-- The `Tags` array of the register payload: each tag as `key=value`,
then `version=…` when the instance has a version, then `namespace=…`
when it has a namespace (consul.rs lines 147–156). -/
def consulRegisterTags (inst : ServiceInstance) : List String :=
  inst.tags.map (fun kv => kv.1 ++ "=" ++ kv.2)
    ++ (match inst.version with
        | some v => ["version=" ++ v]
        | none => [])
    ++ (match inst.namespace_ with
        | some ns => ["namespace=" ++ ns]
        | none => [])

/-- `str::split_once('=')`: split at the first `=`, if any. -/
def splitOnceEqAux : List Char → List Char → Option (List Char × List Char)
  | _, [] => none
  | acc, c :: rest =>
    if c = '=' then some (acc.reverse, rest) else splitOnceEqAux (c :: acc) rest

def splitOnceEq (s : String) : Option (String × String) :=
  match splitOnceEqAux [] s.data with
  | some (a, b) => some (String.mk a, String.mk b)
  | none => none

/-- One entry of the agent's `/v1/health/service/{name}` response, after
the field extraction that `ConsulBackend::discover` performs with `?`
(any entry missing `Address`/`Port`, or whose `{address}:{port}` fails to
parse, aborts the whole call, so the `Ok` path sees only decoded
entries).  `addressRaw` is the JSON `Address` string, `address` its
parsed IP. -/
structure ConsulServiceEntry where
  id : Option String
  addressRaw : String
  address : IpAddr
  port : Nat
  tags : List String

/-- The `ServiceInstance` built from one response entry: `ServiceInstance::new`
(so namespace/version default to `None`, `healthy` to `true`, `weight`
to 100) with each `k=v` tag parsed back into the tag map and a bare tag
`t` read as `t → "true"` (consul.rs lines 93–115). -/
def consulTagStep (inst : ServiceInstance) (tag : String) : ServiceInstance :=
  match splitOnceEq tag with
  | some kv => inst.with_tag kv.1 kv.2
  | none => inst.with_tag tag "true"

def consulParseInstance (service_type : String) (e : ConsulServiceEntry) : ServiceInstance :=
  let default_id := service_type ++ "-" ++ e.addressRaw
  let inst := ServiceInstance.new service_type (e.id.getD default_id) ⟨e.address, e.port⟩
  e.tags.foldl consulTagStep inst

/-- `ConsulBackend::discover` on the agent response `entries`: build each
instance, then apply the same namespace/version/tag filters as the etcd
backend.  Whether unhealthy entries appear in `entries` at all is decided
agent-side by the `passing` flag (`CONSUL_PASSING_ONLY`); the code applies
no health filter of its own. -/
def consulDiscover (service_type : String) (ns version : Option String)
    (tags : Option (List (String × String))) (entries : List ConsulServiceEntry) :
    List ServiceInstance :=
  entries.filterMap (fun e =>
    let inst := consulParseInstance service_type e
    if discoverFilterOk ns version tags inst then some inst else none)

/-! ### The DNS backend (`src/discovery/backend/dns.rs`)

The Rust struct holds the full config and the default namespace
(fallback `"default"`).  `resolve_srv` never performs SRV resolution
(the source's TODO); it returns the parsed `"addresses"` entries of the
backend config, modelled here as the `addresses` field. -/

structure DnsBackend where
  namespace_ : String
  addresses : List SockAddr

/-- `DnsBackend::discover` (dns.rs lines 63–85): one instance per
configured address, id `{service_type}-{idx}`, the backend's namespace
stamped on; the `_namespace`, `_version` and `_tags` arguments are
ignored, so every returned instance has an empty tag map. -/
def DnsBackend.discover (self : DnsBackend) (service_type : String)
    (_ns _version : Option String) (_tags : Option (List (String × String))) :
    List ServiceInstance :=
  self.addresses.enum.map (fun p =>
    (ServiceInstance.new service_type (service_type ++ "-" ++ toString p.1) p.2).with_namespace
      self.namespace_)

/-! ### The reconciler refresh task (`src/discovery/discover.rs`)

`start_refresh_task` keeps a map `instances : instance_id → ServiceInstance`
(the last-known set) and, through the updater, a channel cache
`instance_id → Channel`; each tick it calls `backend.discover`, diffs, and
emits `Change::Insert`/`Change::Remove` on the event channel. -/

/-- An opaque tonic transport channel handle. -/
abbrev Channel := Nat

/-- Dialing: `Endpoint::connect` on the instance's URI; `none` is a
failed dial. -/
abbrev Dial := ServiceInstance → Option Channel

/-- A `tower::discover::Change` event as sent on the stream. -/
inductive Event
  | insert (id : String) (ch : Channel)
  | remove (id : String)
deriving DecidableEq

def Event.id : Event → String
  | .insert i _ => i
  | .remove i => i

/-- The sub-sequence of events carrying a given instance id. -/
def eventsFor (id : String) (evs : List Event) : List Event :=
  evs.filter (fun e => e.id == id)

/-- The reconciler state: last-known instance map and channel cache. -/
structure ReconState where
  instances : List (String × ServiceInstance)
  cache : List (String × Channel)
deriving DecidableEq

/-- `ServiceDiscoverUpdater::create_channel_service`: return the cached
channel when present; otherwise dial, and on success cache and return the
fresh channel (discover.rs lines 304–334). -/
def create_channel_service (dial : Dial) (cache : List (String × Channel))
    (inst : ServiceInstance) : Option (Channel × List (String × Channel)) :=
  match assocGet cache inst.instance_id with
  | some service => some (service, cache)
  | none =>
    match dial inst with
    | some channel => some (channel, assocPut cache inst.instance_id channel)
    | none => none

/-- Accumulator of one refresh pass: the two maps plus the events emitted
so far, in order. -/
structure PassAcc where
  current : List (String × ServiceInstance)
  cache : List (String × Channel)
  events : List Event
deriving DecidableEq

/-- Processing of one `(id, new_inst)` entry of the new map
(discover.rs lines 233–252).  Same id with different content: remove
(clearing the cache entry, then the Remove event), dial afresh, insert on
success; unknown id: dial, insert on success.  In both arms the source
runs `current.insert(id, new_inst)` **outside** the dial-success check,
so a failed dial still records the instance. -/
def stepNew (dial : Dial) (acc : PassAcc) (entry : String × ServiceInstance) : PassAcc :=
  match assocGet acc.current entry.1 with
  | some old_inst =>
    if old_inst = entry.2 then acc
    else
      let cache1 := assocErase acc.cache entry.1
      let events1 := acc.events ++ [Event.remove entry.1]
      match create_channel_service dial cache1 entry.2 with
      | some sc =>
        { current := assocPut acc.current entry.1 entry.2
        , cache := assocPut sc.2 entry.1 sc.1
        , events := events1 ++ [Event.insert entry.1 sc.1] }
      | none =>
        { current := assocPut acc.current entry.1 entry.2
        , cache := cache1
        , events := events1 }
  | none =>
    match create_channel_service dial acc.cache entry.2 with
    | some sc =>
      { current := assocPut acc.current entry.1 entry.2
      , cache := assocPut sc.2 entry.1 sc.1
      , events := acc.events ++ [Event.insert entry.1 sc.1] }
    | none =>
      { current := assocPut acc.current entry.1 entry.2
      , cache := acc.cache
      , events := acc.events }

/-- One step of deletion detection: an id absent from the new map is
removed from cache and map and a Remove event is emitted. -/
def removeStep (newMap : List (String × ServiceInstance)) (a : PassAcc) (id : String) :
    PassAcc :=
  if (assocGet newMap id).isSome then a
  else
    { current := assocErase a.current id
    , cache := assocErase a.cache id
    , events := a.events ++ [Event.remove id] }

/-- Deletion detection (discover.rs lines 255–262): iterate over the ids
currently known (collected after the insert/update phase) and remove
every one absent from the new map. -/
def stepRemovals (newMap : List (String × ServiceInstance)) (acc : PassAcc) : PassAcc :=
  (acc.current.map Prod.fst).foldl (removeStep newMap) acc

/-- Indexing the discover result by `instance_id`
(`new_instances.into_iter().map(|i| (i.instance_id, i)).collect()`):
a later duplicate id overwrites an earlier one, as in `HashMap::collect`. -/
def indexById (l : List ServiceInstance) : List (String × ServiceInstance) :=
  l.foldl (fun m inst => assocPut m inst.instance_id inst) []

/-- One refresh pass (discover.rs lines 221–268): on a discover error the
pass is skipped — state untouched, no events (lines 264–267); on success
the diff described above. -/
def reconcilerPass (dial : Dial) (st : ReconState)
    (res : Except String (List ServiceInstance)) : ReconState × List Event :=
  match res with
  | .error _ => (st, [])
  | .ok new_instances =>
    let newMap := indexById new_instances
    let acc1 := newMap.foldl (stepNew dial)
      { current := st.instances, cache := st.cache, events := [] }
    let acc2 := stepRemovals newMap acc1
    ({ instances := acc2.current, cache := acc2.cache }, acc2.events)

/-- The event stream produced by a sequence of refresh passes. -/
def reconcilerRun (dial : Dial) (st : ReconState)
    (results : List (Except String (List ServiceInstance))) : ReconState × List Event :=
  match results with
  | [] => (st, [])
  | r :: rest =>
    let p := reconcilerPass dial st r
    let q := reconcilerRun dial p.1 rest
    (q.1, p.2 ++ q.2)

/-! ### Association-list lemmas -/

theorem assocGet_assocPut_self {V : Type} (m : List (String × V)) (k : String) (v : V) :
    assocGet (assocPut m k v) k = some v := by
  induction m with
  | nil => simp [assocPut, assocGet]
  | cons hd tl ih =>
    obtain ⟨a, b⟩ := hd
    by_cases h : a = k
    · simp [assocPut, assocGet, h]
    · simp [assocPut, assocGet, h, ih]

theorem assocGet_assocPut_ne {V : Type} (m : List (String × V)) (k key : String) (v : V)
    (h : key ≠ k) : assocGet (assocPut m k v) key = assocGet m key := by
  induction m with
  | nil => simp [assocPut, assocGet, Ne.symm h]
  | cons hd tl ih =>
    obtain ⟨a, b⟩ := hd
    by_cases ha : a = k
    · subst ha
      simp [assocPut, assocGet, Ne.symm h]
    · by_cases hb : a = key
      · subst hb
        simp [assocPut, assocGet, ha]
      · simp [assocPut, assocGet, ha, hb, ih]

theorem assocGet_assocErase_self {V : Type} (m : List (String × V)) (k : String) :
    assocGet (assocErase m k) k = none := by
  induction m with
  | nil => simp [assocErase, assocGet]
  | cons hd tl ih =>
    obtain ⟨a, b⟩ := hd
    by_cases h : a = k
    · subst h
      simpa [assocErase, List.filter] using ih
    · simpa [assocErase, assocGet, List.filter, h] using ih

theorem assocGet_assocErase_ne {V : Type} (m : List (String × V)) (k key : String)
    (h : key ≠ k) : assocGet (assocErase m k) key = assocGet m key := by
  induction m with
  | nil => simp [assocErase, assocGet]
  | cons hd tl ih =>
    obtain ⟨a, b⟩ := hd
    by_cases ha : a = k
    · subst ha
      simpa [assocErase, assocGet, List.filter, Ne.symm h] using ih
    · by_cases hb : a = key
      · subst hb
        simp [assocErase, assocGet, List.filter, ha]
      · simpa [assocErase, assocGet, List.filter, ha, hb] using ih

theorem mem_assocPut {V : Type} (m : List (String × V)) (k : String) (v : V)
    (kv : String × V) (h : kv ∈ assocPut m k v) : kv = (k, v) ∨ kv ∈ m := by
  induction m with
  | nil => simpa [assocPut] using h
  | cons hd tl ih =>
    obtain ⟨a, b⟩ := hd
    by_cases ha : a = k
    · simp only [assocPut, ha, if_true] at h
      rcases List.mem_cons.mp h with h1 | h1
      · exact Or.inl h1
      · exact Or.inr (List.mem_cons_of_mem _ h1)
    · simp only [assocPut, ha, if_false] at h
      rcases List.mem_cons.mp h with h1 | h1
      · exact Or.inr (List.mem_cons.mpr (Or.inl h1))
      · rcases ih h1 with h2 | h2
        · exact Or.inl h2
        · exact Or.inr (List.mem_cons_of_mem _ h2)

theorem assocGet_mem {V : Type} (m : List (String × V)) (k : String) (v : V)
    (h : assocGet m k = some v) : (k, v) ∈ m := by
  induction m with
  | nil => simp [assocGet] at h
  | cons hd tl ih =>
    obtain ⟨a, b⟩ := hd
    by_cases ha : a = k
    · subst ha
      simp only [assocGet, if_true] at h
      cases h
      exact List.mem_cons_self _ _
    · simp only [assocGet, ha, if_false] at h
      exact List.mem_cons_of_mem _ (ih h)

/-- Key uniqueness of an association list. -/
abbrev KeysNodup {V : Type} (m : List (String × V)) : Prop :=
  (m.map Prod.fst).Nodup

theorem mem_keys_assocPut {V : Type} (m : List (String × V)) (k : String) (v : V)
    (a : String) (h : a ∈ (assocPut m k v).map Prod.fst) :
    a ∈ m.map Prod.fst ∨ a = k := by
  rcases List.mem_map.mp h with ⟨kv, hkv, hfst⟩
  rcases mem_assocPut m k v kv hkv with h1 | h1
  · right
    rw [h1] at hfst
    exact hfst.symm
  · left
    exact List.mem_map.mpr ⟨kv, h1, hfst⟩

theorem keysNodup_assocPut {V : Type} (m : List (String × V)) (k : String) (v : V)
    (h : KeysNodup m) : KeysNodup (assocPut m k v) := by
  induction m with
  | nil => simp [KeysNodup, assocPut]
  | cons hd tl ih =>
    obtain ⟨a, b⟩ := hd
    have h2 : a ∉ tl.map Prod.fst ∧ (tl.map Prod.fst).Nodup := by
      simpa [KeysNodup] using h
    by_cases ha : a = k
    · subst ha
      show ((assocPut ((a, b) :: tl) a v).map Prod.fst).Nodup
      rw [show assocPut ((a, b) :: tl) a v = (a, v) :: tl by simp [assocPut]]
      simpa using h2
    · show ((assocPut ((a, b) :: tl) k v).map Prod.fst).Nodup
      rw [show assocPut ((a, b) :: tl) k v = (a, b) :: assocPut tl k v by
        simp [assocPut, ha]]
      rw [List.map_cons]
      refine List.nodup_cons.mpr ⟨?_, ih h2.2⟩
      intro hmem
      rcases mem_keys_assocPut tl k v a hmem with h1 | h1
      · exact h2.1 h1
      · exact ha h1

theorem indexById_aux_wf (l : List ServiceInstance) :
    ∀ (m : List (String × ServiceInstance)),
      (∀ kv ∈ m, (kv.2 : ServiceInstance).instance_id = kv.1) →
      ∀ kv ∈ l.foldl (fun m inst => assocPut m inst.instance_id inst) m,
        (kv.2 : ServiceInstance).instance_id = kv.1 := by
  induction l with
  | nil => intro m hm kv hkv; exact hm kv hkv
  | cons hd tl ih =>
    intro m hm kv hkv
    refine ih (assocPut m hd.instance_id hd) ?_ kv hkv
    intro kv2 hkv2
    rcases mem_assocPut m hd.instance_id hd kv2 hkv2 with h1 | h1
    · rw [h1]
    · exact hm kv2 h1

theorem indexById_wf (l : List ServiceInstance) :
    ∀ kv ∈ indexById l, (kv.2 : ServiceInstance).instance_id = kv.1 := by
  intro kv hkv
  exact indexById_aux_wf l [] (by intro kv2 h; simp at h) kv hkv

theorem indexById_aux_nodup (l : List ServiceInstance) :
    ∀ (m : List (String × ServiceInstance)), KeysNodup m →
      KeysNodup (l.foldl (fun m inst => assocPut m inst.instance_id inst) m) := by
  induction l with
  | nil => intro m hm; exact hm
  | cons hd tl ih =>
    intro m hm
    exact ih (assocPut m hd.instance_id hd) (keysNodup_assocPut m hd.instance_id hd hm)

theorem indexById_nodup (l : List ServiceInstance) : KeysNodup (indexById l) :=
  indexById_aux_nodup l [] (by simp [KeysNodup])

/-! ### Per-id event analysis of a refresh pass -/

/-- The events one pass emits for an id whose content changed: Remove,
then — exactly when the fresh dial succeeds — Insert carrying the freshly
dialed channel. -/
def dialBlock (dial : Dial) (id : String) (inst : ServiceInstance) : List Event :=
  match dial inst with
  | some ch => [Event.remove id, Event.insert id ch]
  | none => [Event.remove id]

theorem eventsFor_append (id : String) (a b : List Event) :
    eventsFor id (a ++ b) = eventsFor id a ++ eventsFor id b := by
  simp [eventsFor, List.filter_append]

theorem eventsFor_dialBlock (dial : Dial) (id : String) (inst : ServiceInstance) :
    eventsFor id (dialBlock dial id inst) = dialBlock dial id inst := by
  cases hd : dial inst <;> simp [dialBlock, hd, eventsFor, Event.id]

theorem stepNew_eventsFor_ne (dial : Dial) (acc : PassAcc) (e : String × ServiceInstance)
    (id : String) (h : e.1 ≠ id) :
    eventsFor id (stepNew dial acc e).events = eventsFor id acc.events := by
  have hbe : (e.1 == id) = false := beq_eq_false_iff_ne.mpr h
  unfold stepNew
  cases hget : assocGet acc.current e.1 with
  | some old =>
    by_cases heq : old = e.2
    · simp [heq]
    · simp only [if_neg heq]
      cases hcs : create_channel_service dial (assocErase acc.cache e.1) e.2 with
      | some sc => simp [eventsFor, List.filter_append, Event.id, hbe]
      | none => simp [eventsFor, List.filter_append, Event.id, hbe]
  | none =>
    cases hcs : create_channel_service dial acc.cache e.2 with
    | some sc => simp [eventsFor, List.filter_append, Event.id, hbe]
    | none => simp [eventsFor, List.filter_append, Event.id, hbe]

theorem stepNew_current_ne (dial : Dial) (acc : PassAcc) (e : String × ServiceInstance)
    (id : String) (h : id ≠ e.1) :
    assocGet (stepNew dial acc e).current id = assocGet acc.current id := by
  unfold stepNew
  cases hget : assocGet acc.current e.1 with
  | some old =>
    by_cases heq : old = e.2
    · simp [heq]
    · simp only [if_neg heq]
      cases hcs : create_channel_service dial (assocErase acc.cache e.1) e.2 with
      | some sc => simp [assocGet_assocPut_ne _ _ _ _ h]
      | none => simp [assocGet_assocPut_ne _ _ _ _ h]
  | none =>
    cases hcs : create_channel_service dial acc.cache e.2 with
    | some sc => simp [assocGet_assocPut_ne _ _ _ _ h]
    | none => simp [assocGet_assocPut_ne _ _ _ _ h]

/-- The changed-content arm of `stepNew`: the cache entry is erased first,
so `create_channel_service` misses the cache and the inserted channel is
the result of a fresh dial of the new instance. -/
theorem stepNew_self (dial : Dial) (acc : PassAcc) (id : String) (new old : ServiceInstance)
    (hid : new.instance_id = id)
    (hcur : assocGet acc.current id = some old) (hne : old ≠ new) :
    (stepNew dial acc (id, new)).events = acc.events ++ dialBlock dial id new := by
  have hmiss : assocGet (assocErase acc.cache id) new.instance_id = none := by
    rw [hid]
    exact assocGet_assocErase_self acc.cache id
  unfold stepNew
  simp only [hcur]
  have hne2 : ¬ (old = new) := hne
  simp only [if_neg hne2]
  unfold create_channel_service
  rw [hmiss]
  cases hd : dial new with
  | some ch => simp [dialBlock, hd, List.append_assoc]
  | none => simp [dialBlock, hd]

theorem foldl_stepNew_eventsFor_nokey (dial : Dial) (id : String) :
    ∀ (l : List (String × ServiceInstance)) (acc : PassAcc),
      (∀ kv ∈ l, (kv : String × ServiceInstance).1 ≠ id) →
      eventsFor id (l.foldl (stepNew dial) acc).events = eventsFor id acc.events := by
  intro l
  induction l with
  | nil => intro acc _; rfl
  | cons e tl ih =>
    intro acc hk
    rw [List.foldl_cons]
    rw [ih (stepNew dial acc e) (fun kv hkv => hk kv (List.mem_cons_of_mem _ hkv))]
    exact stepNew_eventsFor_ne dial acc e id (hk e (List.mem_cons_self _ _))

/-- Folding `stepNew` over a distinct-key map containing `(id, new)` with
`old ≠ new` previously recorded emits, for that id, exactly the block
Remove-then-fresh-Insert (or Remove alone when the dial fails). -/
theorem foldl_stepNew_eventsFor (dial : Dial) (id : String) (new old : ServiceInstance)
    (hid : new.instance_id = id) (hne : old ≠ new) :
    ∀ (l : List (String × ServiceInstance)) (acc : PassAcc),
      KeysNodup l →
      (id, new) ∈ l →
      assocGet acc.current id = some old →
      eventsFor id (l.foldl (stepNew dial) acc).events
        = eventsFor id acc.events ++ dialBlock dial id new := by
  intro l
  induction l with
  | nil => intro acc _ hmem; exact absurd hmem (List.not_mem_nil _)
  | cons e tl ih =>
    intro acc hnd hmem hcur
    have hnd2 : e.1 ∉ tl.map Prod.fst ∧ (tl.map Prod.fst).Nodup := by
      simpa [KeysNodup] using hnd
    rcases List.mem_cons.mp hmem with hhead | htail
    · -- the head is the target entry
      have he : e = (id, new) := hhead.symm
      subst he
      rw [List.foldl_cons]
      have hk : ∀ kv ∈ tl, (kv : String × ServiceInstance).1 ≠ id := by
        intro kv hkv hkeq
        exact hnd2.1 (List.mem_map.mpr ⟨kv, hkv, hkeq⟩)
      rw [foldl_stepNew_eventsFor_nokey dial id tl _ hk]
      rw [stepNew_self dial acc id new old hid hcur hne]
      rw [eventsFor_append, eventsFor_dialBlock]
    · -- the head is a different id
      have hne1 : e.1 ≠ id := by
        intro hkeq
        exact hnd2.1 (List.mem_map.mpr ⟨(id, new), htail, hkeq.symm ▸ rfl⟩)
      rw [List.foldl_cons]
      rw [ih (stepNew dial acc e) hnd2.2 htail ?_]
      · rw [stepNew_eventsFor_ne dial acc e id hne1]
      · rw [stepNew_current_ne dial acc e id (Ne.symm hne1)]
        exact hcur

theorem foldl_removeStep_eventsFor (newMap : List (String × ServiceInstance)) (id : String)
    (hin : (assocGet newMap id).isSome = true) :
    ∀ (ids : List String) (acc : PassAcc),
      eventsFor id (ids.foldl (removeStep newMap) acc).events = eventsFor id acc.events := by
  intro ids
  induction ids with
  | nil => intro acc; rfl
  | cons i tl ih =>
    intro acc
    rw [List.foldl_cons, ih]
    by_cases hi : i = id
    · subst hi
      simp [removeStep, hin]
    · have hbe : (i == id) = false := beq_eq_false_iff_ne.mpr hi
      cases hs : (assocGet newMap i).isSome with
      | true => simp [removeStep, hs]
      | false => simp [removeStep, hs, eventsFor, List.filter_append, Event.id, hbe]

/-! ### Discover membership helpers -/

/-- Introduction rule for membership in an etcd discover result: a stored,
decodable record under one of the scanned prefixes that passes the
namespace/version/tag filters is returned.  The `healthy` flag of the
record plays no role. -/
theorem mem_etcd_discover_intro (self : EtcdBackend) (store : EtcdStore)
    (st : String) (ns ver : Option String) (t : Option (List (String × String)))
    (kp key : String) (inst : ServiceInstance)
    (hkp : kp ∈ self.discoverScanKeys st ns)
    (hmem : (key, some inst) ∈ store)
    (hpfx : strIsPrefixOf kp key = true)
    (hok : discoverFilterOk ns ver t inst = true) :
    inst ∈ self.discover store st ns ver t := by
  unfold EtcdBackend.discover
  refine List.mem_flatMap.mpr ⟨kp, hkp, ?_⟩
  refine List.mem_filterMap.mpr ⟨(key, some inst), ?_, ?_⟩
  · exact List.mem_filter.mpr ⟨hmem, hpfx⟩
  · simp [hok]

/-- Elimination: every member of an etcd discover result passed the
filters. -/
theorem mem_etcd_discover_elim (self : EtcdBackend) (store : EtcdStore)
    (st : String) (ns ver : Option String) (t : Option (List (String × String)))
    (inst : ServiceInstance) (h : inst ∈ self.discover store st ns ver t) :
    discoverFilterOk ns ver t inst = true := by
  unfold EtcdBackend.discover at h
  rcases List.mem_flatMap.mp h with ⟨kp, _, hmem⟩
  rcases List.mem_filterMap.mp hmem with ⟨kv, _, heq⟩
  cases hv : kv.2 with
  | none => rw [hv] at heq; simp at heq
  | some i =>
    rw [hv] at heq
    have heq2 : (if discoverFilterOk ns ver t i = true then some i else none) = some inst :=
      heq
    by_cases hok : discoverFilterOk ns ver t i = true
    · have : i = inst := by
        rw [if_pos hok] at heq2
        exact Option.some_inj.mp heq2
      exact this ▸ hok
    · rw [if_neg hok] at heq2
      simp at heq2

/-- Elimination for the Consul backend. -/
theorem mem_consul_discover_elim (st : String) (ns ver : Option String)
    (t : Option (List (String × String))) (entries : List ConsulServiceEntry)
    (inst : ServiceInstance) (h : inst ∈ consulDiscover st ns ver t entries) :
    discoverFilterOk ns ver t inst = true
      ∧ ∃ e ∈ entries, inst = consulParseInstance st e := by
  unfold consulDiscover at h
  rcases List.mem_filterMap.mp h with ⟨e, he, heq⟩
  have heq2 : (if discoverFilterOk ns ver t (consulParseInstance st e) = true
      then some (consulParseInstance st e) else none) = some inst := heq
  by_cases hok : discoverFilterOk ns ver t (consulParseInstance st e) = true
  · have hi : consulParseInstance st e = inst := by
      rw [if_pos hok] at heq2
      exact Option.some_inj.mp heq2
    exact ⟨hi ▸ hok, ⟨e, he, hi.symm⟩⟩
  · rw [if_neg hok] at heq2
    simp at heq2

/-- `matches_tags` is the superset check: every filter key is present with
the filter's value. -/
theorem matches_tags_iff (inst : ServiceInstance) (t : List (String × String)) :
    inst.matches_tags t = true ↔ ∀ kv ∈ t, assocGet inst.tags kv.1 = some kv.2 := by
  unfold ServiceInstance.matches_tags
  rw [List.all_eq_true]
  constructor
  · intro h kv hkv
    have h2 := h kv hkv
    cases hg : assocGet inst.tags kv.1 with
    | some v =>
      rw [hg] at h2
      have : v = kv.2 := by simpa using h2
      rw [this]
    | none => rw [hg] at h2; simp at h2
  · intro h kv hkv
    rw [h kv hkv]
    simp

theorem discoverFilterOk_tags (ns ver : Option String) (t : List (String × String))
    (inst : ServiceInstance) (h : discoverFilterOk ns ver (some t) inst = true) :
    inst.matches_tags t = true := by
  unfold discoverFilterOk at h
  simp only [Bool.and_eq_true] at h
  exact h.2

theorem discoverFilterOk_ns_some_none (n : String) (ver : Option String)
    (t : Option (List (String × String))) (inst : ServiceInstance)
    (hns : inst.namespace_ = none) :
    discoverFilterOk (some n) ver t inst = false := by
  simp [discoverFilterOk, ServiceInstance.matches_namespace, hns]

theorem discoverFilterOk_ver_some_none (ns : Option String) (v : String)
    (t : Option (List (String × String))) (inst : ServiceInstance)
    (hv : inst.version = none) :
    discoverFilterOk ns (some v) t inst = false := by
  simp [discoverFilterOk, ServiceInstance.matches_version, hv]

/-! ### Field preservation through Consul tag parsing -/

theorem consulTagStep_fields (inst : ServiceInstance) (tag : String) :
    (consulTagStep inst tag).namespace_ = inst.namespace_
      ∧ (consulTagStep inst tag).version = inst.version
      ∧ (consulTagStep inst tag).healthy = inst.healthy
      ∧ (consulTagStep inst tag).weight = inst.weight := by
  cases hs : splitOnceEq tag <;> simp [consulTagStep, hs, ServiceInstance.with_tag]

theorem foldl_consulTagStep_fields (ts : List String) :
    ∀ (inst : ServiceInstance),
      (ts.foldl consulTagStep inst).namespace_ = inst.namespace_
        ∧ (ts.foldl consulTagStep inst).version = inst.version
        ∧ (ts.foldl consulTagStep inst).healthy = inst.healthy
        ∧ (ts.foldl consulTagStep inst).weight = inst.weight := by
  induction ts with
  | nil => intro inst; exact ⟨rfl, rfl, rfl, rfl⟩
  | cons tg tl ih =>
    intro inst
    rw [List.foldl_cons]
    rcases ih (consulTagStep inst tg) with ⟨h1, h2, h3, h4⟩
    rcases consulTagStep_fields inst tg with ⟨g1, g2, g3, g4⟩
    exact ⟨h1.trans g1, h2.trans g2, h3.trans g3, h4.trans g4⟩

/-- Every instance the Consul backend parses out of the agent response
carries the `ServiceInstance::new` defaults: no namespace, no version,
healthy, weight 100. -/
theorem consulParseInstance_fields (st : String) (e : ConsulServiceEntry) :
    (consulParseInstance st e).namespace_ = none
      ∧ (consulParseInstance st e).version = none
      ∧ (consulParseInstance st e).healthy = true
      ∧ (consulParseInstance st e).weight = 100 := by
  unfold consulParseInstance
  rcases foldl_consulTagStep_fields e.tags
      (ServiceInstance.new st (e.id.getD (st ++ "-" ++ e.addressRaw)) ⟨e.address, e.port⟩)
    with ⟨h1, h2, h3, h4⟩
  exact ⟨h1, h2, h3, h4⟩

theorem strIsPrefixOf_append (p s : String) : strIsPrefixOf p (p ++ s) = true := by
  unfold strIsPrefixOf
  rw [String.data_append]
  exact List.isPrefixOf_iff_prefix.mpr (List.prefix_append _ _)

/-! ### Concrete objects for counterexamples and witnesses -/

/-- A plain instance as produced by `ServiceInstance::new("svc", "n1", 127.0.0.1:8080)`. -/
def sampleInst : ServiceInstance :=
  { service_type := "svc", instance_id := "n1", address := ⟨.v4 127 0 0 1, 8080⟩
  , namespace_ := none, version := none, tags := []
  , metadata := InstanceMetadata.default, healthy := true, weight := 100 }

/-- The same instance with its stored health flag cleared. -/
def unhealthyInst : ServiceInstance := { sampleInst with healthy := false }

/-- An etcd store holding the unhealthy record under the default prefix. -/
def unhealthyStore : EtcdStore := [("flare/services/svc/n1", some unhealthyInst)]

/-- The sample instance placed in namespace `myns`. -/
def mynsInst : ServiceInstance := { sampleInst with namespace_ := some "myns" }

/-- The store after registering `mynsInst` on a backend configured with
default namespace `myns`. -/
def mynsStore : EtcdStore := [((EtcdBackend.register ⟨"myns"⟩ mynsInst).key, some mynsInst)]

/-- An environment setting only `SERVICE_HEARTBEAT_INTERVAL=30`. -/
def hbEnv30 : Env :=
  fun name => if name = "SERVICE_HEARTBEAT_INTERVAL" then some "30" else none

/-- The sample instance with changed content (weight 50 instead of 100). -/
def changedInst : ServiceInstance := { sampleInst with weight := 50 }

/-- The sample instance carrying the tag `env=prod`. -/
def tagInst : ServiceInstance := { sampleInst with tags := [("env", "prod")] }

/-- An etcd store holding the tagged record under the default prefix. -/
def tagStore : EtcdStore := [("flare/services/svc/n1", some tagInst)]

/-- One agent health-response entry with an id, address, and two tags. -/
def consulEntryW : ConsulServiceEntry :=
  { id := some "n1", addressRaw := "10.0.0.5", address := .v4 10 0 0 5
  , port := 9000, tags := ["env=prod", "canary"] }

/-! ### The claims -/

/-- C1: the registration written by the lease-KV backend is claimed to sit
under a lease with the backend's configured TTL (default 60 s).  The code
issues the put with `PutOptions::new()` and never creates a lease — its
own comment concedes a lease should be created — so every registration is
written with no lease at all and never expires. -/
theorem etcd_register_creates_no_lease (self : EtcdBackend) (inst : ServiceInstance) :
    (self.register inst).lease = none := rfl

/-- C2 (counterexample): a record stored with `healthy = false` is
returned verbatim by the lease-KV `discover`, refuting the claim that
unhealthy instances never appear in discovery results. -/
theorem etcd_discover_returns_unhealthy :
    EtcdBackend.discover ⟨"flare"⟩ unhealthyStore "svc" none none none = [unhealthyInst]
      ∧ unhealthyInst.healthy = false := by decide

/-- C2 (amended): `discover` applies exactly the namespace/version/tag
filters; any decodable stored record under a scanned prefix that passes
them is returned, and every returned instance passed them — the stored
`healthy` flag is never consulted. -/
theorem discover_filters_ignore_health :
    (∀ (self : EtcdBackend) (store : EtcdStore) (st : String) (ns ver : Option String)
        (t : Option (List (String × String))) (kp key : String) (inst : ServiceInstance),
        kp ∈ self.discoverScanKeys st ns →
        (key, some inst) ∈ store →
        strIsPrefixOf kp key = true →
        discoverFilterOk ns ver t inst = true →
        inst ∈ self.discover store st ns ver t)
      ∧ (∀ (self : EtcdBackend) (store : EtcdStore) (st : String) (ns ver : Option String)
          (t : Option (List (String × String))) (inst : ServiceInstance),
          inst ∈ self.discover store st ns ver t →
          discoverFilterOk ns ver t inst = true) := by
  constructor
  · intro self store st ns ver t kp key inst hkp hmem hpfx hok
    exact mem_etcd_discover_intro self store st ns ver t kp key inst hkp hmem hpfx hok
  · intro self store st ns ver t inst h
    exact mem_etcd_discover_elim self store st ns ver t inst h

/-- C2 witness: the unhealthy record of the counterexample is returned by
the amended rule. -/
theorem discover_filters_ignore_health_witness :
    unhealthyInst ∈ EtcdBackend.discover ⟨"flare"⟩ unhealthyStore "svc" none none none :=
  (discover_filters_ignore_health).1 ⟨"flare"⟩ unhealthyStore "svc" none none none
    "flare/services/svc/" "flare/services/svc/n1" unhealthyInst
    (by decide) (by decide) (by decide) (by decide)

/-- C3: with a dial that fails, the refresh task of pass 1 records the
discovered instance in its last-known map without emitting any Insert,
and pass 2 (empty discover result) then emits `Remove("n1")` — a Remove
with no strictly earlier Insert on the stream, refuting the no-spurious-
remove invariant. -/
theorem remove_without_prior_insert :
    (reconcilerRun (fun _ => none) ⟨[], []⟩
        [Except.ok [sampleInst], Except.ok []]).2 = [Event.remove "n1"] := by decide

/-- C4 (counterexample): with `SERVICE_HEARTBEAT_INTERVAL=30` and
`CONSUL_TTL_SECONDS` unset, the factory produces heartbeat 30 against the
agent backend's TTL 45, and 30 × 2 = 60 > 45: the claimed relation fails;
the factory performs no validation. -/
theorem ttl_calibration_env_violation :
    ¬ (heartbeatInterval hbEnv30 * 2 ≤ consulTtlSeconds hbEnv30) := by decide

/-- C4 (amended): with the environment variables unset the defaults do
satisfy the calibration: 20 × 2 = 40 ≤ 45 (agent TTL), ≤ 90 (the `ttl`
`register_and_discover` hard-codes for etcd) and ≤ 60 (`ETCD_TTL_SECONDS`
default used by `create_with_defaults`). -/
theorem ttl_calibration_default_env (env : Env)
    (h1 : env "SERVICE_HEARTBEAT_INTERVAL" = none)
    (h2 : env "CONSUL_TTL_SECONDS" = none)
    (h3 : env "ETCD_TTL_SECONDS" = none) :
    heartbeatInterval env * 2 ≤ consulTtlSeconds env
      ∧ heartbeatInterval env * 2 ≤ etcdRegisterAndDiscoverTtl
      ∧ heartbeatInterval env * 2 ≤ etcdDefaultsTtl env := by
  have e1 : heartbeatInterval env = 20 := by simp [heartbeatInterval, envU64, h1]
  have e2 : consulTtlSeconds env = 45 := by simp [consulTtlSeconds, envU64, h2]
  have e3 : etcdDefaultsTtl env = 60 := by simp [etcdDefaultsTtl, envU64, h3]
  rw [e1, e2, e3]
  exact ⟨by decide, by decide, by decide⟩

/-- C4 witness: the empty environment. -/
theorem ttl_calibration_default_env_witness :
    heartbeatInterval (fun _ => none) * 2 ≤ consulTtlSeconds (fun _ => none)
      ∧ heartbeatInterval (fun _ => none) * 2 ≤ etcdRegisterAndDiscoverTtl
      ∧ heartbeatInterval (fun _ => none) * 2 ≤ etcdDefaultsTtl (fun _ => none) :=
  ttl_calibration_default_env (fun _ => none) rfl rfl rfl

/-- C5 (counterexample): the DNS backend ignores the tags argument — a
discover call filtering on `env=prod` returns the configured-address
instance whose tag map is empty (`env` absent), so its tag map is not a
superset of the filter, refuting the claim for "any backend". -/
theorem dns_discover_ignores_tag_filter :
    DnsBackend.discover ⟨"default", [⟨.v4 10 0 0 7, 8080⟩]⟩ "svc"
        none none (some [("env", "prod")])
      = [(ServiceInstance.new "svc" "svc-0" ⟨.v4 10 0 0 7, 8080⟩).with_namespace "default"]
    ∧ assocGet ((ServiceInstance.new "svc" "svc-0"
        ⟨.v4 10 0 0 7, 8080⟩).with_namespace "default").tags "env" = none := by
  decide

/-- C5 (amended): the tag-filter superset property holds for the
lease-KV and agent-HTTP backends — every instance they return under a
tag filter `t` carries every requested tag with exactly the requested
value; the DNS backend ignores the filter arguments entirely. -/
theorem discover_tag_filter_superset :
    (∀ (self : EtcdBackend) (store : EtcdStore) (st : String) (ns ver : Option String)
        (t : List (String × String)) (inst : ServiceInstance),
        inst ∈ self.discover store st ns ver (some t) →
        ∀ kv ∈ t, assocGet inst.tags kv.1 = some kv.2)
      ∧ (∀ (st : String) (ns ver : Option String) (t : List (String × String))
          (entries : List ConsulServiceEntry) (inst : ServiceInstance),
          inst ∈ consulDiscover st ns ver (some t) entries →
          ∀ kv ∈ t, assocGet inst.tags kv.1 = some kv.2) := by
  constructor
  · intro self store st ns ver t inst h
    exact (matches_tags_iff inst t).mp
      (discoverFilterOk_tags ns ver t inst
        (mem_etcd_discover_elim self store st ns ver (some t) inst h))
  · intro st ns ver t entries inst h
    exact (matches_tags_iff inst t).mp
      (discoverFilterOk_tags ns ver t inst
        (mem_consul_discover_elim st ns ver (some t) entries inst h).1)

/-- C5 witness: the tagged record is returned under the filter
`env=prod` and indeed carries it. -/
theorem discover_tag_filter_superset_witness :
    assocGet tagInst.tags "env" = some "prod" :=
  (discover_tag_filter_superset).1 ⟨"flare"⟩ tagStore "svc" none none
    [("env", "prod")] tagInst (by decide) ("env", "prod") (by decide)

/-- C6: a refresh pass whose backend discover errors is skipped entirely:
the last-known instance map and the channel cache are returned unchanged
and no event is emitted. -/
theorem reconciler_error_pass_skipped (dial : Dial) (st : ReconState) (e : String) :
    reconcilerPass dial st (Except.error e) = (st, []) := rfl

/-- C7 (counterexample): for an id whose content changed but whose fresh
dial fails, the pass emits only `Remove("n1")` — the claimed
Remove-then-Insert pair does not occur. -/
theorem content_change_dial_failure_no_insert :
    (reconcilerPass (fun _ => none) ⟨[("n1", sampleInst)], [("n1", 7)]⟩
        (Except.ok [changedInst])).2 = [Event.remove "n1"] := by decide

/-- C7 (amended): for every id present in both the previous and the new
discover result with differing content, the pass emits `Remove(id)` and —
exactly when the fresh dial of the new instance succeeds — then
`Insert(id, ch)` where `ch` is the freshly dialed channel (the cache
entry is erased before dialing, so the old channel is never reused); when
the dial fails only the Remove is emitted. -/
theorem content_change_remove_then_fresh_insert (dial : Dial) (st : ReconState)
    (newList : List ServiceInstance) (id : String) (old new : ServiceInstance)
    (hold : assocGet st.instances id = some old)
    (hnew : assocGet (indexById newList) id = some new)
    (hne : old ≠ new) :
    eventsFor id (reconcilerPass dial st (Except.ok newList)).2 = dialBlock dial id new := by
  have hmem : (id, new) ∈ indexById newList := assocGet_mem _ _ _ hnew
  have hid : new.instance_id = id := indexById_wf newList (id, new) hmem
  have hin : (assocGet (indexById newList) id).isSome = true := by rw [hnew]; rfl
  have key := foldl_stepNew_eventsFor dial id new old hid hne (indexById newList)
    { current := st.instances, cache := st.cache, events := [] }
    (indexById_nodup newList) hmem hold
  show eventsFor id (stepRemovals (indexById newList)
      ((indexById newList).foldl (stepNew dial)
        { current := st.instances, cache := st.cache, events := [] })).events
    = dialBlock dial id new
  unfold stepRemovals
  rw [foldl_removeStep_eventsFor (indexById newList) id hin, key]
  rfl

/-- C7 witness: with the cached channel 7 for `n1` and a dial yielding
42, the changed instance produces `Remove` then `Insert` carrying the
fresh channel 42. -/
theorem content_change_remove_then_fresh_insert_witness :
    eventsFor "n1" (reconcilerPass (fun _ => some 42)
        ⟨[("n1", sampleInst)], [("n1", 7)]⟩ (Except.ok [changedInst])).2
      = [Event.remove "n1", Event.insert "n1" 42] :=
  content_change_remove_then_fresh_insert (fun _ => some 42)
    ⟨[("n1", sampleInst)], [("n1", 7)]⟩ [changedInst] "n1" sampleInst changedInst
    (by decide) (by decide) (by decide)

/-- C8 (counterexample): with configured default namespace `myns`, the
registered record under `myns/…` is invisible to a namespace-less
discover (which scans only `flare`, `flare-test`, `default`), while an
explicit `myns` discover finds it. -/
theorem default_namespace_not_scanned :
    EtcdBackend.discover ⟨"myns"⟩ mynsStore "svc" none none none = []
      ∧ EtcdBackend.discover ⟨"myns"⟩ mynsStore "svc" (some "myns") none none = [mynsInst] := by
  decide

/-- C8 (amended): the namespace-less discover scans exactly the fixed
namespaces `flare`, `flare-test`, `default` in that order, independent of
the configured default; since `register` falls back to `flare` for an
instance without a namespace, such an instance is found by a
namespace-less discover. -/
theorem no_namespace_scan_fixed_list :
    (∀ (self : EtcdBackend) (st : String),
        self.discoverScanKeys st none
          = [ "flare" ++ "/services/" ++ st ++ "/"
            , "flare-test" ++ "/services/" ++ st ++ "/"
            , "default" ++ "/services/" ++ st ++ "/" ])
      ∧ (∀ (self : EtcdBackend) (inst : ServiceInstance) (store : EtcdStore),
          inst.namespace_ = none →
          ((self.register inst).key, some inst) ∈ store →
          inst ∈ self.discover store inst.service_type none none none) := by
  constructor
  · intro self st
    rfl
  · intro self inst store hns hmem
    have hkey : (self.register inst).key
        = ("flare" ++ "/services/" ++ inst.service_type ++ "/") ++ inst.instance_id := by
      unfold EtcdBackend.register EtcdBackend.service_key
      rw [hns]
      rfl
    apply mem_etcd_discover_intro self store inst.service_type none none none
      ("flare" ++ "/services/" ++ inst.service_type ++ "/") ((self.register inst).key) inst
    · exact List.mem_cons_self _ _
    · exact hmem
    · rw [hkey]
      exact strIsPrefixOf_append _ _
    · rfl

/-- C8 witness: an instance with no namespace, registered on the default
backend, is found by the namespace-less discover. -/
theorem no_namespace_scan_fixed_list_witness :
    sampleInst ∈ EtcdBackend.discover ⟨"flare"⟩
      [((EtcdBackend.register ⟨"flare"⟩ sampleInst).key, some sampleInst)]
      "svc" none none none :=
  (no_namespace_scan_fixed_list).2 ⟨"flare"⟩ sampleInst
    [((EtcdBackend.register ⟨"flare"⟩ sampleInst).key, some sampleInst)]
    rfl (by decide)

/-- C9: the agent backend rewrites an unspecified address to the loopback
of its family before sending it to the agent, sends any specified address
unchanged, and the lease-KV register persists the instance (address
included) verbatim. -/
theorem unspecified_address_loopback_rewrite :
    (∀ ip : IpAddr, ip.is_unspecified = true →
        consulServiceAddress ip = (if ip.is_ipv4 then loopback4 else loopback6))
      ∧ (∀ ip : IpAddr, ip.is_unspecified = false → consulServiceAddress ip = ip)
      ∧ (∀ (self : EtcdBackend) (inst : ServiceInstance), (self.register inst).value = inst) := by
  refine ⟨?_, ?_, ?_⟩
  · intro ip h
    simp [consulServiceAddress, h]
  · intro ip h
    simp [consulServiceAddress, h]
  · intro self inst
    rfl

/-- C9 witness: `0.0.0.0 → 127.0.0.1`, `:: → ::1`, `10.0.0.5` unchanged,
and the etcd put stores the instance verbatim. -/
theorem unspecified_address_loopback_rewrite_witness :
    consulServiceAddress (IpAddr.v4 0 0 0 0) = loopback4
      ∧ consulServiceAddress (IpAddr.v6 0 0 0 0 0 0 0 0) = loopback6
      ∧ consulServiceAddress (IpAddr.v4 10 0 0 5) = IpAddr.v4 10 0 0 5
      ∧ (EtcdBackend.register ⟨"flare"⟩ sampleInst).value = sampleInst :=
  ⟨(unspecified_address_loopback_rewrite).1 (IpAddr.v4 0 0 0 0) (by decide),
   (unspecified_address_loopback_rewrite).1 (IpAddr.v6 0 0 0 0 0 0 0 0) (by decide),
   (unspecified_address_loopback_rewrite).2.1 (IpAddr.v4 10 0 0 5) (by decide),
   (unspecified_address_loopback_rewrite).2.2 ⟨"flare"⟩ sampleInst⟩

/-- C10: every instance the agent backend's discover returns carries the
`ServiceInstance::new` defaults — no namespace, no version, healthy,
weight 100 — so any non-None namespace or version filter yields the empty
list; the registered namespace and version survive only as `namespace=…`
and `version=…` entries of the register payload's tag array. -/
theorem consul_discover_projection :
    (∀ (st : String) (ns ver : Option String) (t : Option (List (String × String)))
        (entries : List ConsulServiceEntry) (inst : ServiceInstance),
        inst ∈ consulDiscover st ns ver t entries →
        inst.namespace_ = none ∧ inst.version = none
          ∧ inst.healthy = true ∧ inst.weight = 100)
      ∧ (∀ (st n : String) (ver : Option String) (t : Option (List (String × String)))
          (entries : List ConsulServiceEntry),
          consulDiscover st (some n) ver t entries = [])
      ∧ (∀ (st : String) (ns : Option String) (v : String)
          (t : Option (List (String × String))) (entries : List ConsulServiceEntry),
          consulDiscover st ns (some v) t entries = [])
      ∧ (∀ (inst : ServiceInstance) (n : String), inst.namespace_ = some n →
          ("namespace=" ++ n) ∈ consulRegisterTags inst)
      ∧ (∀ (inst : ServiceInstance) (v : String), inst.version = some v →
          ("version=" ++ v) ∈ consulRegisterTags inst) := by
  refine ⟨?_, ?_, ?_, ?_, ?_⟩
  · intro st ns ver t entries inst h
    rcases mem_consul_discover_elim st ns ver t entries inst h with ⟨-, e, _, hi⟩
    rw [hi]
    exact consulParseInstance_fields st e
  · intro st n ver t entries
    unfold consulDiscover
    refine List.filterMap_eq_nil_iff.mpr ?_
    intro e _
    have h0 := discoverFilterOk_ns_some_none n ver t (consulParseInstance st e)
      (consulParseInstance_fields st e).1
    simp [h0]
  · intro st ns v t entries
    unfold consulDiscover
    refine List.filterMap_eq_nil_iff.mpr ?_
    intro e _
    have h0 := discoverFilterOk_ver_some_none ns v t (consulParseInstance st e)
      (consulParseInstance_fields st e).2.1
    simp [h0]
  · intro inst n hn
    simp [consulRegisterTags, hn]
  · intro inst v hv
    simp [consulRegisterTags, hv]

/-- C10 witness: the parsed entry carries the defaults, and a namespace
filter empties the result. -/
theorem consul_discover_projection_witness :
    ((consulParseInstance "svc" consulEntryW).namespace_ = none
      ∧ (consulParseInstance "svc" consulEntryW).version = none
      ∧ (consulParseInstance "svc" consulEntryW).healthy = true
      ∧ (consulParseInstance "svc" consulEntryW).weight = 100)
      ∧ consulDiscover "svc" (some "prod-ns") none none [consulEntryW] = [] :=
  ⟨(consul_discover_projection).1 "svc" none none none [consulEntryW]
      (consulParseInstance "svc" consulEntryW) (by decide),
   (consul_discover_projection).2.1 "svc" "prod-ns" none none [consulEntryW]⟩

end Flare
